import Mathlib

/-!
Verification of the flux orchestration service layer (`service.go`).

The Go file defines a `service` struct composed of four leaf collaborators
(registry client, kubernetes platform, automator, history DB) and seven
operations: `Images`, `ServiceImages`, `Services`, `History`, `Release`,
`Automate`, `Deautomate`.  Below we shallowly embed the data model and the
seven operations.  Leaves are modelled as records of response functions
(arbitrary leaf behaviour is universally quantified in the theorems); the
history store's write operations are modelled concretely from the spec's
store contract (append-only event log plus a current-state register per
(namespace, workload) key), because the history package's implementation is
outside the sources at hand.  Every operation additionally returns the trace
of leaf calls it performed, so that statements about "no mutation" and about
which namespace argument is forwarded to leaves are directly expressible.
-/

/-- Go errors, compared by identity in the source: `ErrNoPlatformConfigured`
(from `service.go`) and `history.ErrNoHistory`; `other` covers every other
leaf error.  `text` is Go's `err.Error()`. -/
inductive GoErr where
  | noPlatformConfigured : GoErr
  | noHistory : GoErr
  | other : String → GoErr
deriving DecidableEq, Repr

/-- `err.Error()`: the error's message text. -/
def GoErr.text : GoErr → String
  | .noPlatformConfigured => "no platform configured"
  | .noHistory => "no history"
  | .other m => m

/-- Release states of the history store: `history.StateRest`,
`history.StateInProgress`, `history.StateUnknown`. -/
inductive ReleaseState where
  | Rest : ReleaseState
  | InProgress : ReleaseState
  | Unknown : ReleaseState
deriving DecidableEq, Repr

/-- Modelled from the spec: `registry.Image` (the registry package is not in
the sources).  Spec §3: repository name, tag, creation timestamp. -/
structure Image where
  repositoryName : String
  tag : String
  createdAt : Nat
deriving DecidableEq, Repr

/-- `registry.Repository`: carries the ordered image list used by the core. -/
structure Repository where
  Images : List Image
deriving DecidableEq, Repr

/-- `platform.Container`: a (name, current image reference) pair. -/
structure Container where
  Name : String
  Image : String
deriving DecidableEq, Repr

/-- `platform.Service`: an opaque workload descriptor returned by the
platform's service enumeration. -/
structure PlatformService where
  Name : String
deriving DecidableEq, Repr

/-- `history.History`: one workload's record — its identifier, current release
state and its ordered event texts. -/
structure History where
  Service : String
  State : ReleaseState
  Events : List String
deriving DecidableEq, Repr

/-- `flux.ContainerImages`: join of a running container with the image list of
the repository its running image belongs to (`service.go`). -/
structure ContainerImages where
  Container : Container
  Images : List Image
deriving DecidableEq, Repr

/-- Modelled from the spec:
`registry.ParseImage(ref).Repository()` (registry package not in the
sources).  Spec §4.2: "derive its repository identifier from its current
image reference by stripping the tag component". -/
def stripTag (ref : String) : String :=
  let l := ref.toList
  if l.contains ':' then
    String.mk (l.take (l.length - 1 - (l.reverse.takeWhile (fun c => c ≠ ':')).length))
  else ref

/-- The registry leaf: `GetRepository(id) → (repository, error)`. -/
structure RegistryClient where
  getRepository : String → Except GoErr Repository

/-- The platform leaf (`kubernetes.Cluster` behind the `platform` field):
`ContainersFor`, `Services`, and the blocking bounded `Release`
(`newDef` bytes and the update period, returning an optional error). -/
structure Platform where
  containersFor : String → String → Except GoErr (List Container)
  services : String → Except GoErr (List PlatformService)
  release : String → String → List Nat → Int → Option GoErr

/-- The read side of the history leaf (`history.DB`): `AllEvents` and
`EventsForService` are arbitrary leaf responses. -/
structure HistoryDB where
  allEvents : String → Except GoErr (List (String × History))
  eventsForService : String → String → Except GoErr History

/-- One record of the history store: current state register plus the
append-only event log, per (namespace, workload) key. -/
structure HRec where
  state : ReleaseState
  events : List String
deriving DecidableEq, Repr

/-- Modelled from the spec: the history store's durable state, spec §3 — an
"append-only event log plus current-state register per (namespace,
workload)". -/
def HState : Type := String × String → HRec

/-- Modelled from the spec: `history.DB.ChangeState(ns, svc, state)` sets the
state register of the (ns, svc) key and touches nothing else. -/
def changeState (σ : HState) (ns svc : String) (st : ReleaseState) : HState :=
  fun k => if k = (ns, svc) then { σ k with state := st } else σ k

/-- Modelled from the spec: `history.DB.LogEvent(ns, svc, msg)` appends one
event text to the (ns, svc) key's log and touches nothing else. -/
def logEvent (σ : HState) (ns svc msg : String) : HState :=
  fun k => if k = (ns, svc) then { σ k with events := (σ k).events ++ [msg] } else σ k

/-- A leaf call made by the core, recorded in the operation's trace. -/
inductive LeafCall where
  | getRepository : String → LeafCall
  | containersFor : String → String → LeafCall
  | platformServices : String → LeafCall
  | platformRelease : String → String → List Nat → Int → LeafCall
  | allEvents : String → LeafCall
  | eventsForService : String → String → LeafCall
  | changeState : String → String → ReleaseState → LeafCall
  | logEvent : String → String → String → LeafCall
  | automatorEnable : String → String → LeafCall
  | automatorDisable : String → String → LeafCall
deriving DecidableEq, Repr

/-- The namespace arguments a leaf call carries (only `GetRepository` takes
none). -/
def LeafCall.nsArgs : LeafCall → List String
  | .getRepository _ => []
  | .containersFor ns _ => [ns]
  | .platformServices ns => [ns]
  | .platformRelease ns _ _ _ => [ns]
  | .allEvents ns => [ns]
  | .eventsForService ns _ => [ns]
  | .changeState ns _ _ => [ns]
  | .logEvent ns _ _ => [ns]
  | .automatorEnable ns _ => [ns]
  | .automatorDisable ns _ => [ns]

/-- `DefaultNamespace` (`service.go` line 15): declared, "used when no
namespace is provided to service methods". -/
def DefaultNamespace : String := "default"

/-- The `service` struct (`service.go`): registry, platform (a nil-able
pointer, hence `Option`), automator (fire-and-forget, no observable response
surface), history DB read side. -/
structure service where
  registry : RegistryClient
  platform : Option Platform
  historyDB : HistoryDB

/-- Outcome of an operation whose Go code can dereference a nil pointer:
either a value, an error, or a runtime panic. -/
inductive Outcome (α : Type) where
  | ok : α → Outcome α
  | err : GoErr → Outcome α
  | panics : Outcome α
deriving DecidableEq, Repr

/-- `service.Images` (`service.go` 80–86): fetch the repository from the
registry leaf; on error return it, else return the repository's image list. -/
def service.Images (s : service) (repository : String) :
    Except GoErr (List Image) × List LeafCall :=
  match s.registry.getRepository repository with
  | .error e => (.error e, [.getRepository repository])
  | .ok repo => (.ok repo.Images, [.getRepository repository])

/-- The per-container loop of `service.ServiceImages` (`service.go` 93–100):
for each container in order, look up the repository derived from its running
image; fail fast on the first lookup error, else pair container with the
repository's images. -/
def serviceImagesLoop (reg : RegistryClient) (cs : List Container) :
    Except GoErr (List ContainerImages) × List LeafCall :=
  match cs with
  | [] => (.ok [], [])
  | c :: rest =>
    let repoId := stripTag c.Image
    match reg.getRepository repoId with
    | .error e => (.error e, [.getRepository repoId])
    | .ok repo =>
      match serviceImagesLoop reg rest with
      | (.error e, t) => (.error e, .getRepository repoId :: t)
      | (.ok views, t) => (.ok (⟨c, repo.Images⟩ :: views), .getRepository repoId :: t)

/-- `service.ServiceImages` (`service.go` 88–102).  The Go code calls
`s.platform.ContainersFor` without a nil check; a nil platform pointer
dereference is modelled as a panic (the `kubernetes.Cluster` method body is
outside the sources; its receiver is dereferenced on use). -/
def service.ServiceImages (s : service) (ns svc : String) :
    Outcome (List ContainerImages) × List LeafCall :=
  match s.platform with
  | none => (.panics, [])
  | some p =>
    match p.containersFor ns svc with
    | .error e => (.err e, [.containersFor ns svc])
    | .ok containers =>
      match serviceImagesLoop s.registry containers with
      | (.error e, t) => (.err e, .containersFor ns svc :: t)
      | (.ok views, t) => (.ok views, .containersFor ns svc :: t)

/-- `service.Services` (`service.go` 104–109): nil-platform check, then pure
pass-through of the platform's service enumeration. -/
def service.Services (s : service) (ns : String) :
    Except GoErr (List PlatformService) × List LeafCall :=
  match s.platform with
  | none => (.error .noPlatformConfigured, [])
  | some p => (p.services ns, [.platformServices ns])

/-- `service.History` (`service.go` 111–130): empty workload → all events for
the namespace; else one workload's record, with the `ErrNoHistory` condition
normalized to a synthesized zero-event `Unknown` record; the single-entry map
is keyed by the record's `Service` field. -/
def service.History (s : service) (ns svc : String) :
    Except GoErr (List (String × History)) × List LeafCall :=
  if svc = "" then
    (s.historyDB.allEvents ns, [.allEvents ns])
  else
    match s.historyDB.eventsForService ns svc with
    | .ok h => (.ok [(h.Service, h)], [.eventsForService ns svc])
    | .error e =>
      if e = .noHistory then
        (.ok [(svc, { Service := svc, State := .Unknown, Events := [] })],
         [.eventsForService ns svc])
      else
        (.error e, [.eventsForService ns svc])

/-- The audit text `service.Release` logs (`service.go` 137–144): the failure
text carries the platform error's `Error()` text. -/
def releaseEventText (res : Option GoErr) : String :=
  match res with
  | some e => "Release failed: " ++ e.text
  | none => "Release succeeded"

/-- `service.Release` (`service.go` 132–146): nil-platform check; state to
`InProgress`; blocking platform release; then (deferred, on every exit path)
append exactly one audit event and set state back to `Rest`; return the
platform call's error verbatim. -/
def service.Release (s : service) (ns svc : String) (newDef : List Nat)
    (updatePeriod : Int) (σ : HState) :
    Option GoErr × HState × List LeafCall :=
  match s.platform with
  | none => (some .noPlatformConfigured, σ, [])
  | some p =>
    let σ1 := changeState σ ns svc .InProgress
    let res := p.release ns svc newDef updatePeriod
    let msg := releaseEventText res
    let σ2 := logEvent σ1 ns svc msg
    let σ3 := changeState σ2 ns svc .Rest
    (res, σ3,
     [.changeState ns svc .InProgress,
      .platformRelease ns svc newDef updatePeriod,
      .logEvent ns svc msg,
      .changeState ns svc .Rest])

/-- `service.Automate` (`service.go` 148–151): forward to the automator's
`Enable`; always returns nil. -/
def service.Automate (_s : service) (ns svc : String) :
    Option GoErr × List LeafCall :=
  (none, [.automatorEnable ns svc])

/-- `service.Deautomate` (`service.go` 153–156): forward to the automator's
`Disable`; always returns nil. -/
def service.Deautomate (_s : service) (ns svc : String) :
    Option GoErr × List LeafCall :=
  (none, [.automatorDisable ns svc])

/-- A trace forwards the namespace verbatim when every namespace argument of
every leaf call in it equals the caller's namespace. -/
def forwardsNs (t : List LeafCall) (ns : String) : Prop :=
  ∀ c ∈ t, ∀ x ∈ LeafCall.nsArgs c, x = ns

/-- No leaf call in the trace carries `DefaultNamespace` as a namespace
argument. -/
def neverDefaultNs (t : List LeafCall) : Prop :=
  ∀ c ∈ t, ∀ x ∈ LeafCall.nsArgs c, x ≠ DefaultNamespace

/-! ## Concrete leaf doubles used by the closed witnesses -/

/-- A registry double: every repository exists with two images. -/
def regStub : RegistryClient :=
  ⟨fun r => .ok ⟨[⟨r, "v3", 3⟩, ⟨r, "v2", 2⟩]⟩⟩

/-- A registry double that fails for one repository identifier. -/
def regFailOn (bad : String) : RegistryClient :=
  ⟨fun r => if r = bad then .error (.other "registry 500") else .ok ⟨[⟨r, "v3", 3⟩]⟩⟩

/-- A platform double whose rolling update succeeds. -/
def platStub : Platform :=
  ⟨fun _ _ => .ok [⟨"web", "app:v1"⟩],
   fun _ => .ok [⟨"web"⟩],
   fun _ _ _ _ => none⟩

/-- A platform double whose rolling update fails with a timeout error. -/
def platStubErr : Platform :=
  ⟨fun _ _ => .ok [⟨"bad1", "boom:v1"⟩, ⟨"ok2", "app:v1"⟩],
   fun _ => .ok [⟨"web"⟩],
   fun _ _ _ _ => some (.other "timeout")⟩

/-- A history-read double: every workload has a rest-state record named after
the requested workload. -/
def histStub : HistoryDB :=
  ⟨fun _ => .ok [], fun _ svc => .ok ⟨svc, .Rest, []⟩⟩

/-- A history-read double reporting the no-history condition for every
workload. -/
def histNoHist : HistoryDB :=
  ⟨fun _ => .ok [], fun _ _ => .error .noHistory⟩

/-- A history-read double returning a record whose `Service` field differs
from the requested workload identifier. -/
def histMismatch : HistoryDB :=
  ⟨fun _ => .ok [], fun _ _ => .ok ⟨"other", .Rest, []⟩⟩

/-- A service constructed with a platform leaf. -/
def svcWithPlat : service := ⟨regStub, some platStub, histStub⟩

/-- A service whose platform's rolling update fails. -/
def svcWithPlatErr : service := ⟨regFailOn "boom", some platStubErr, histStub⟩

/-- A service constructed without a platform leaf (nil platform pointer). -/
def svcNoPlat : service := ⟨regStub, none, histStub⟩

/-- A service whose history store reports no history. -/
def svcNoHist : service := ⟨regStub, some platStub, histNoHist⟩

/-- A service whose history store answers with a mismatched `Service` field. -/
def svcMismatch : service := ⟨regStub, some platStub, histMismatch⟩

/-- An initial history-store state: every key at rest with an empty log. -/
def hstate0 : HState := fun _ => ⟨.Rest, []⟩

/-! ## Claim theorems -/

/-- C1: for every `Release` call on a service constructed with a platform
leaf, whatever the platform's rolling update returns, exactly one audit event
is appended to the (namespace, workload) history — "Release failed: <error
text>" when the platform call errored, "Release succeeded" otherwise — and
the state register of that key ends at `Rest`. -/
theorem release_appends_one_event_and_rests (s : service) (p : Platform)
    (hp : s.platform = some p) (ns svc : String) (newDef : List Nat)
    (per : Int) (σ : HState) :
    (((service.Release s ns svc newDef per σ).2.1 (ns, svc)).events
        = (σ (ns, svc)).events
            ++ [match p.release ns svc newDef per with
                | some e => "Release failed: " ++ e.text
                | none => "Release succeeded"])
      ∧ ((service.Release s ns svc newDef per σ).2.1 (ns, svc)).state = .Rest := by
  cases hres : p.release ns svc newDef per <;>
    simp [service.Release, hp, hres, releaseEventText, changeState, logEvent]

/-- C1 witness: concrete successful release appends "Release succeeded" and
ends at `Rest`. -/
theorem release_appends_one_event_and_rests_witness :
    (((service.Release svcWithPlat "prod" "web" [] 30 hstate0).2.1 ("prod", "web")).events
        = (hstate0 ("prod", "web")).events
            ++ [match platStub.release "prod" "web" [] 30 with
                | some e => "Release failed: " ++ e.text
                | none => "Release succeeded"])
      ∧ ((service.Release svcWithPlat "prod" "web" [] 30 hstate0).2.1 ("prod", "web")).state = .Rest :=
  release_appends_one_event_and_rests svcWithPlat platStub rfl "prod" "web" [] 30 hstate0

/-- C2: constructed without a platform leaf, `Services` returns
`ErrNoPlatformConfigured`, and `Release` returns `ErrNoPlatformConfigured`
while leaving the history state untouched and performing no leaf call at all
(no state-register change, no event append). -/
theorem no_platform_rejects_without_mutation (s : service) (hp : s.platform = none)
    (ns svc : String) (newDef : List Nat) (per : Int) (σ : HState) :
    (service.Services s ns).1 = .error .noPlatformConfigured
      ∧ service.Release s ns svc newDef per σ = (some .noPlatformConfigured, σ, []) := by
  simp [service.Services, service.Release, hp]

/-- C2 witness: the unconfigured service at a concrete call. -/
theorem no_platform_rejects_without_mutation_witness :
    (service.Services svcNoPlat "prod").1 = .error .noPlatformConfigured
      ∧ service.Release svcNoPlat "prod" "web" [] 30 hstate0
          = (some .noPlatformConfigured, hstate0, []) :=
  no_platform_rejects_without_mutation svcNoPlat rfl "prod" "web" [] 30 hstate0

/-- C3: with a platform leaf configured, the value `Release` returns is
exactly the platform rolling-update call's result (error or nil); the history
side effects never alter it. -/
theorem release_returns_platform_result (s : service) (p : Platform)
    (hp : s.platform = some p) (ns svc : String) (newDef : List Nat)
    (per : Int) (σ : HState) :
    (service.Release s ns svc newDef per σ).1 = p.release ns svc newDef per := by
  simp [service.Release, hp]

/-- C3 witness: a failing platform's error is returned verbatim. -/
theorem release_returns_platform_result_witness :
    (service.Release svcWithPlatErr "prod" "web" [] 30 hstate0).1
      = platStubErr.release "prod" "web" [] 30 :=
  release_returns_platform_result svcWithPlatErr platStubErr rfl "prod" "web" [] 30 hstate0

/-- C8: `Images` is a pure pass-through: the leaf's image list on success,
the leaf's error unchanged on failure, and its only leaf interaction is the
single registry read (no platform, history or automator call). -/
theorem images_pure_passthrough (s : service) (repo : String) :
    ((service.Images s repo).1
        = match s.registry.getRepository repo with
          | .ok r => .ok r.Images
          | .error e => .error e)
      ∧ (service.Images s repo).2 = [.getRepository repo] := by
  cases h : s.registry.getRepository repo <;> simp [service.Images, h]

/-- C9: `ServiceImages` performs no nil-platform check: on a service
constructed without a platform leaf it dereferences the nil platform pointer
(modelled as a panic) before any leaf call, and in particular never returns
`ErrNoPlatformConfigured`. -/
theorem serviceImages_missing_nil_check (s : service) (hp : s.platform = none)
    (ns svc : String) :
    service.ServiceImages s ns svc = (.panics, [])
      ∧ ∀ e : GoErr, (service.ServiceImages s ns svc).1 ≠ Outcome.err e := by
  simp [service.ServiceImages, hp]

/-- C9 witness: the unconfigured service panics at a concrete call. -/
theorem serviceImages_missing_nil_check_witness :
    service.ServiceImages svcNoPlat "prod" "web" = (.panics, [])
      ∧ ∀ e : GoErr, (service.ServiceImages svcNoPlat "prod" "web").1 ≠ Outcome.err e :=
  serviceImages_missing_nil_check svcNoPlat rfl "prod" "web"

/-- Loop helper for C4: when every repository lookup before position `k`
succeeds and the lookup at position `k` fails with `e`, the whole per-container
loop fails with `e` (no partial list is produced). -/
theorem serviceImagesLoop_fail (reg : RegistryClient) (cs : List Container)
    (k : Nat) (hk : k < cs.length) (e : GoErr)
    (hfail : reg.getRepository (stripTag (cs.get ⟨k, hk⟩).Image) = .error e)
    (hbefore : ∀ j : Fin cs.length, j.1 < k →
      ∃ r, reg.getRepository (stripTag (cs.get j).Image) = .ok r) :
    (serviceImagesLoop reg cs).1 = .error e := by
  induction cs generalizing k with
  | nil => exact absurd hk (Nat.not_lt_zero _)
  | cons c rest ih =>
    cases k with
    | zero =>
      simp only [List.get] at hfail
      simp [serviceImagesLoop, hfail]
    | succ k =>
      obtain ⟨r, hr⟩ := hbefore ⟨0, Nat.succ_pos _⟩ (Nat.succ_pos _)
      simp only [List.get] at hr hfail
      have hk2 : k < rest.length := Nat.lt_of_succ_lt_succ hk
      have ihres := ih k hk2 hfail (fun j hj => by
        have hmem := hbefore ⟨j.1 + 1, Nat.succ_lt_succ j.2⟩ (Nat.succ_lt_succ hj)
        simpa using hmem)
      simp only [serviceImagesLoop, hr]
      cases hl : serviceImagesLoop reg rest with
      | mk res t =>
        rw [hl] at ihres
        cases res with
        | error e2 =>
          have he2 : e2 = e := by simpa using ihres
          subst he2
          simp
        | ok vs => simp at ihres

/-- C4: with a platform leaf configured, if the repository lookup for the
first failing container (position `k`, all earlier lookups succeeding) errors
with `e`, then `ServiceImages` fails with `e` and returns no partial list of
container/image pairs at all. -/
theorem serviceImages_fail_fast (s : service) (p : Platform)
    (hp : s.platform = some p) (ns svc : String) (cs : List Container)
    (hcs : p.containersFor ns svc = .ok cs) (k : Nat) (hk : k < cs.length)
    (e : GoErr)
    (hfail : s.registry.getRepository (stripTag (cs.get ⟨k, hk⟩).Image) = .error e)
    (hbefore : ∀ j : Fin cs.length, j.1 < k →
      ∃ r, s.registry.getRepository (stripTag (cs.get j).Image) = .ok r) :
    (service.ServiceImages s ns svc).1 = .err e
      ∧ ∀ l : List ContainerImages, (service.ServiceImages s ns svc).1 ≠ .ok l := by
  have hloop := serviceImagesLoop_fail s.registry cs k hk e hfail hbefore
  have hmain : (service.ServiceImages s ns svc).1 = .err e := by
    simp only [service.ServiceImages, hp, hcs]
    cases hl : serviceImagesLoop s.registry cs with
    | mk res t =>
      rw [hl] at hloop
      cases res with
      | error e2 =>
        have he2 : e2 = e := by simpa using hloop
        subst he2
        simp
      | ok vs => simp at hloop
  exact ⟨hmain, fun l h => by rw [hmain] at h; exact Outcome.noConfusion h⟩

/-- C4 witness: with a two-container workload whose first container's
repository lookup fails, the whole call fails with that error. -/
theorem serviceImages_fail_fast_witness :
    (service.ServiceImages svcWithPlatErr "prod" "web").1 = .err (.other "registry 500")
      ∧ ∀ l : List ContainerImages,
          (service.ServiceImages svcWithPlatErr "prod" "web").1 ≠ .ok l :=
  serviceImages_fail_fast svcWithPlatErr platStubErr rfl "prod" "web"
    [⟨"bad1", "boom:v1"⟩, ⟨"ok2", "app:v1"⟩] rfl 0 (by decide)
    (.other "registry 500") rfl (fun j hj => absurd hj (Nat.not_lt_zero _))

/-- Loop helper for C7: when the per-container loop succeeds, the views pair
the input containers in order with the image list of each container's
repository. -/
theorem serviceImagesLoop_ok_shape (reg : RegistryClient) (cs : List Container)
    (views : List ContainerImages)
    (h : (serviceImagesLoop reg cs).1 = .ok views) :
    views.map ContainerImages.Container = cs
      ∧ ∀ v ∈ views, ∃ repo,
          reg.getRepository (stripTag v.Container.Image) = .ok repo
            ∧ v.Images = repo.Images := by
  induction cs generalizing views with
  | nil =>
    simp only [serviceImagesLoop] at h
    have hv : views = [] := by simpa using h.symm
    subst hv
    simp
  | cons c rest ih =>
    simp only [serviceImagesLoop] at h
    cases hr : reg.getRepository (stripTag c.Image) with
    | error e => rw [hr] at h; simp at h
    | ok repo =>
      rw [hr] at h
      cases hl : serviceImagesLoop reg rest with
      | mk res t =>
        rw [hl] at h
        cases res with
        | error e => simp at h
        | ok vs =>
          have hv : views = ⟨c, repo.Images⟩ :: vs := by simpa using h.symm
          subst hv
          obtain ⟨hmap, hall⟩ := ih vs (by simp [hl])
          refine ⟨by simp [hmap], ?_⟩
          intro v hv
          rcases List.mem_cons.mp hv with hveq | hvtail
          · subst hveq; exact ⟨repo, hr, rfl⟩
          · exact hall v hvtail

/-- C7: whenever `ServiceImages` succeeds, its result has one entry per
running container, in the platform's container order, and each entry pairs
that container with the image list of the repository derived from the
container's running image reference with the tag stripped. -/
theorem serviceImages_success_pairs_in_order (s : service) (p : Platform)
    (hp : s.platform = some p) (ns svc : String) (cs : List Container)
    (hcs : p.containersFor ns svc = .ok cs) (views : List ContainerImages)
    (hok : (service.ServiceImages s ns svc).1 = .ok views) :
    views.map ContainerImages.Container = cs
      ∧ ∀ v ∈ views, ∃ repo,
          s.registry.getRepository (stripTag v.Container.Image) = .ok repo
            ∧ v.Images = repo.Images := by
  apply serviceImagesLoop_ok_shape s.registry cs views
  simp only [service.ServiceImages, hp, hcs] at hok
  cases hl : serviceImagesLoop s.registry cs with
  | mk res t =>
    rw [hl] at hok
    cases res with
    | error e => simp at hok
    | ok vs =>
      have : vs = views := by simpa using hok
      simp [hl, this]

/-- C7 witness: one container running `app:v1` yields one view pairing it
with repository `app`'s images, in order. -/
theorem serviceImages_success_pairs_in_order_witness :
    ([(⟨⟨"web", "app:v1"⟩, [⟨"app", "v3", 3⟩, ⟨"app", "v2", 2⟩]⟩ : ContainerImages)]).map
        ContainerImages.Container = [⟨"web", "app:v1"⟩]
      ∧ ∀ v ∈ [(⟨⟨"web", "app:v1"⟩, [⟨"app", "v3", 3⟩, ⟨"app", "v2", 2⟩]⟩ : ContainerImages)],
          ∃ repo, svcWithPlat.registry.getRepository (stripTag v.Container.Image) = .ok repo
            ∧ v.Images = repo.Images :=
  serviceImages_success_pairs_in_order svcWithPlat platStub rfl "prod" "web"
    [⟨"web", "app:v1"⟩] rfl
    [⟨⟨"web", "app:v1"⟩, [⟨"app", "v3", 3⟩, ⟨"app", "v2", 2⟩]⟩] rfl

/-- C5: for a non-empty workload identifier, when the history store errors,
`History` normalizes the no-history condition into a successful single-entry
mapping to a zero-event `Unknown` record, and returns every other store error
unchanged. -/
theorem history_normalizes_no_history (s : service) (ns svc : String)
    (hsvc : svc ≠ "") (e : GoErr)
    (he : s.historyDB.eventsForService ns svc = .error e) :
    (service.History s ns svc).1
      = if e = .noHistory
        then .ok [(svc, { Service := svc, State := .Unknown, Events := [] })]
        else .error e := by
  simp only [service.History, if_neg hsvc, he]
  by_cases h : e = .noHistory <;> simp [h]

/-- C5 witness: a store reporting no history yields the synthesized record,
not an error. -/
theorem history_normalizes_no_history_witness :
    (service.History svcNoHist "prod" "web").1
      = if GoErr.noHistory = GoErr.noHistory
        then .ok [("web", { Service := "web", State := .Unknown, Events := [] })]
        else .error .noHistory :=
  history_normalizes_no_history svcNoHist "prod" "web" (by decide) .noHistory rfl

/-- C6 counterexample: against a history store whose record carries a
`Service` field different from the requested workload, `History` succeeds but
keys its single entry by the record's field ("other"), not by the requested
identifier ("web") — refuting the claim that the key always equals the
requested workload identifier. -/
theorem history_key_counterexample :
    (service.History svcMismatch "prod" "web").1
        = .ok [("other", { Service := "other", State := .Rest, Events := [] })]
      ∧ ("other" : String) ≠ "web" :=
  ⟨rfl, by decide⟩

/-- C6 (amended): for a non-empty workload identifier, whenever `History`
succeeds the mapping has exactly one entry; its key is the `Service` field of
the record the store returned — equal to the requested identifier only when
the store's record carries it — and equals the requested identifier in the
synthesized no-history case. -/
theorem history_single_entry_keyed_by_record (s : service) (ns svc : String)
    (hsvc : svc ≠ "") (m : List (String × History))
    (hm : (service.History s ns svc).1 = .ok m) :
    m.length = 1
      ∧ (∀ h : History, s.historyDB.eventsForService ns svc = .ok h
          → m = [(h.Service, h)])
      ∧ (s.historyDB.eventsForService ns svc = .error .noHistory
          → m = [(svc, { Service := svc, State := .Unknown, Events := [] })]) := by
  simp only [service.History, if_neg hsvc] at hm
  cases he : s.historyDB.eventsForService ns svc with
  | ok h =>
    rw [he] at hm
    have hmval : m = [(h.Service, h)] := by simpa using hm.symm
    subst hmval
    refine ⟨rfl, ?_, ?_⟩
    · intro h2 he2
      have hh : h = h2 := by simpa using he2
      simp [hh]
    · intro he2
      exact absurd he2 (by simp)
  | error e =>
    rw [he] at hm
    by_cases hne : e = .noHistory
    · subst hne
      have hmval : m = [(svc, { Service := svc, State := .Unknown, Events := [] })] := by
        simpa using hm.symm
      subst hmval
      refine ⟨rfl, ?_, fun _ => rfl⟩
      intro h2 he2
      exact absurd he2 (by simp)
    · simp [hne] at hm

/-- C6 amended witness: the mismatching store yields exactly one entry, keyed
by the record's own `Service` field. -/
theorem history_single_entry_keyed_by_record_witness :
    ([(("other" : String), ({ Service := "other", State := .Rest, Events := [] } : History))]).length = 1
      ∧ (∀ h : History, svcMismatch.historyDB.eventsForService "prod" "web" = .ok h
          → [(("other" : String), ({ Service := "other", State := .Rest, Events := [] } : History))]
              = [(h.Service, h)])
      ∧ (svcMismatch.historyDB.eventsForService "prod" "web" = .error .noHistory
          → [(("other" : String), ({ Service := "other", State := .Rest, Events := [] } : History))]
              = [("web", { Service := "web", State := .Unknown, Events := [] })]) :=
  history_single_entry_keyed_by_record svcMismatch "prod" "web" (by decide)
    [("other", { Service := "other", State := .Rest, Events := [] })] rfl

/-- Loop helper for C10: the per-container loop only performs registry reads,
which carry no namespace argument. -/
theorem serviceImagesLoop_trace_no_ns (reg : RegistryClient) (cs : List Container) :
    ∀ c ∈ (serviceImagesLoop reg cs).2, LeafCall.nsArgs c = [] := by
  induction cs with
  | nil => simp [serviceImagesLoop]
  | cons c rest ih =>
    simp only [serviceImagesLoop]
    cases hr : reg.getRepository (stripTag c.Image) with
    | error e => simp [LeafCall.nsArgs]
    | ok repo =>
      cases hl : serviceImagesLoop reg rest with
      | mk res t =>
        rw [hl] at ih
        cases res with
        | error e =>
          intro x hx
          rcases List.mem_cons.mp hx with hx0 | hxt
          · subst hx0; rfl
          · exact ih x hxt
        | ok vs =>
          intro x hx
          rcases List.mem_cons.mp hx with hx0 | hxt
          · subst hx0; rfl
          · exact ih x hxt

/-- C10: `DefaultNamespace` is never applied — every operation forwards its
namespace argument verbatim to every leaf call it makes (also when the
namespace is the empty string, which receives no special handling), so a leaf
call carries `DefaultNamespace` only when the caller passed it. -/
theorem namespace_forwarded_verbatim (s : service) (ns svc repo : String)
    (newDef : List Nat) (per : Int) (σ : HState) :
    forwardsNs (service.Images s repo).2 ns
      ∧ forwardsNs (service.ServiceImages s ns svc).2 ns
      ∧ forwardsNs (service.Services s ns).2 ns
      ∧ forwardsNs (service.History s ns svc).2 ns
      ∧ forwardsNs (service.Release s ns svc newDef per σ).2.2 ns
      ∧ forwardsNs (service.Automate s ns svc).2 ns
      ∧ forwardsNs (service.Deautomate s ns svc).2 ns
      ∧ (ns ≠ DefaultNamespace
          → neverDefaultNs (service.Release s ns svc newDef per σ).2.2) := by
  refine ⟨?_, ?_, ?_, ?_, ?_, ?_, ?_, ?_⟩
  · cases hr : s.registry.getRepository repo <;>
      simp [service.Images, hr, forwardsNs, LeafCall.nsArgs]
  · cases hp : s.platform with
    | none => simp [service.ServiceImages, hp, forwardsNs]
    | some p =>
      cases hc : p.containersFor ns svc with
      | error e =>
        simp [service.ServiceImages, hp, hc, forwardsNs, LeafCall.nsArgs]
      | ok cs =>
        have hloop := serviceImagesLoop_trace_no_ns s.registry cs
        simp only [service.ServiceImages, hp, hc]
        cases hl : serviceImagesLoop s.registry cs with
        | mk res t =>
          rw [hl] at hloop
          cases res with
          | error e =>
            intro c hc2 x hx
            rcases List.mem_cons.mp hc2 with h0 | ht
            · subst h0; simpa [LeafCall.nsArgs] using hx
            · rw [hloop c ht] at hx; exact absurd hx (List.not_mem_nil x)
          | ok vs =>
            intro c hc2 x hx
            rcases List.mem_cons.mp hc2 with h0 | ht
            · subst h0; simpa [LeafCall.nsArgs] using hx
            · rw [hloop c ht] at hx; exact absurd hx (List.not_mem_nil x)
  · cases hp : s.platform <;>
      simp [service.Services, hp, forwardsNs, LeafCall.nsArgs]
  · by_cases hsvc : svc = ""
    · simp [service.History, hsvc, forwardsNs, LeafCall.nsArgs]
    · simp only [service.History, if_neg hsvc]
      cases he : s.historyDB.eventsForService ns svc with
      | ok h => simp [forwardsNs, LeafCall.nsArgs]
      | error e =>
        by_cases hne : e = .noHistory <;>
          simp [hne, forwardsNs, LeafCall.nsArgs]
  · cases hp : s.platform <;>
      simp [service.Release, hp, forwardsNs, LeafCall.nsArgs]
  · simp [service.Automate, forwardsNs, LeafCall.nsArgs]
  · simp [service.Deautomate, forwardsNs, LeafCall.nsArgs]
  · intro hns
    cases hp : s.platform with
    | none => simp [service.Release, hp, neverDefaultNs]
    | some p =>
      simp [service.Release, hp, neverDefaultNs, LeafCall.nsArgs]
      exact fun h => absurd h hns

/-- C10 witness: at the empty namespace every Release leaf call carries ""
verbatim, and at namespace "prod" no leaf call carries `DefaultNamespace`. -/
theorem namespace_forwarded_verbatim_witness :
    forwardsNs (service.Release svcWithPlat "" "web" [] 30 hstate0).2.2 ""
      ∧ neverDefaultNs (service.Release svcWithPlat "prod" "web" [] 30 hstate0).2.2 :=
  ⟨(namespace_forwarded_verbatim svcWithPlat "" "web" "app" [] 30 hstate0).2.2.2.2.1,
   (namespace_forwarded_verbatim svcWithPlat "prod" "web" "app" [] 30
      hstate0).2.2.2.2.2.2.2 (by decide)⟩
